import Mathlib

/-!
Verification of the lead-generation pipeline (text extractors, record-builder
deduplication, scorer, ranker) of the Biotech-Lead-Generator repository.

The Python source is shallowly embedded: strings are Lean `String`/`List Char`
(the pipeline's data is ASCII; Python's `str.lower`, `str.title`, `\w`, `\s`
are modelled at ASCII granularity), Python `int` is `Int`, Python `float`
arithmetic on the small decimal literals of the ranker is modelled exactly in
`ℚ`, a raised `KeyError` is an `Except` error value, and `datetime.now()` is
an explicit `PyDateTime` argument.  Regular-expression operations
(`re.findall`, `re.search`, `re.sub`) are embedded as specialised matchers
that reproduce the leftmost, greedy, backtracking semantics of the concrete
patterns appearing in the source.
-/

/-! ## Basic character and string helpers (ASCII models of Python str methods) -/

/-- Python `\s` (ASCII): space, tab, newline, carriage return, vertical tab, form feed. -/
def pySpace (c : Char) : Bool :=
  c == ' ' || c == '\t' || c == '\n' || c == '\r' || c == '\x0b' || c == '\x0c'

/-- Python `\w` (ASCII): letters, digits, underscore. -/
def wordChar (c : Char) : Bool :=
  c.isAlphanum || c == '_'

/-- Wordness of an optional character; `none` (string edge) counts as non-word. -/
def wordOpt : Option Char → Bool
  | none => false
  | some c => wordChar c

/-- Python `str.lower()` (ASCII). -/
def pyLower (s : String) : String :=
  String.mk (s.toList.map Char.toLower)

/-- `sub` occurs as a contiguous sublist of `hay` (Python `sub in hay`). -/
def containsSub (sub : List Char) : List Char → Bool
  | [] => sub.isEmpty
  | c :: t => sub.isPrefixOf (c :: t) || containsSub sub t

/-- Python substring test `sub in hay`. -/
def strContains (hay sub : String) : Bool :=
  containsSub sub.toList hay.toList

/-- Python `str.title()` (ASCII): a letter is uppercased after a non-letter,
lowercased after a letter. -/
def titleGo (prevCased : Bool) : List Char → List Char
  | [] => []
  | c :: cs =>
    (if c.isAlpha then (if prevCased then c.toLower else c.toUpper) else c)
      :: titleGo c.isAlpha cs

/-- Python `str.title()` (ASCII). -/
def pyTitle (s : String) : String :=
  String.mk (titleGo false s.toList)

/-- Python `str.isupper()` (ASCII): at least one cased character and no
lowercase cased character. -/
def pyIsUpper (s : String) : Bool :=
  s.toList.any Char.isAlpha && s.toList.all (fun c => !c.isAlpha || c.isUpper)

/-- Python `str.isdigit()` (ASCII). -/
def pyIsDigit (s : String) : Bool :=
  !s.toList.isEmpty && s.toList.all Char.isDigit

/-- Strip the characters of `cs` from both ends (Python `str.strip(chars)`). -/
def pyStripChars (cs : List Char) (l : List Char) : List Char :=
  ((l.dropWhile (cs.contains ·)).reverse.dropWhile (cs.contains ·)).reverse

/-- Strip ASCII whitespace from both ends (Python `str.strip()` / `int(str)` trimming). -/
def pyStripWS (l : List Char) : List Char :=
  ((l.dropWhile pySpace).reverse.dropWhile pySpace).reverse

/-- Python `str.split()` with no argument: split on runs of whitespace,
dropping empty fields.  Fuel-driven; `fuel = length + 1` always suffices since
every round consumes at least one character. -/
def splitWSGo : Nat → List Char → List (List Char)
  | 0, _ => []
  | fuel + 1, l =>
    match l.dropWhile pySpace with
    | [] => []
    | c :: cs =>
      ((c :: cs).takeWhile (fun c => !pySpace c))
        :: splitWSGo fuel ((c :: cs).dropWhile (fun c => !pySpace c))

/-- Python `str.split()` (no separator). -/
def splitWS (l : List Char) : List (List Char) :=
  splitWSGo (l.length + 1) l

/-- Match the (lower-case) literal `lit` case-insensitively at the head of `s`,
returning the remainder. -/
def stripIC : List Char → List Char → Option (List Char)
  | [], s => some s
  | _ :: _, [] => none
  | c :: lit, x :: s => if x.toLower == c then stripIC lit s else none

/-- Value of an ASCII digit. -/
def digitVal (c : Char) : Nat := c.toNat - 48

/-- Digit tail of Python `int(str)`: digits with single underscores allowed
between digits. -/
def digitsGo (acc : Nat) : List Char → Option Nat
  | [] => some acc
  | c :: cs =>
    if c == '_' then
      match cs with
      | [] => none
      | c2 :: cs2 => if c2.isDigit then digitsGo (acc * 10 + digitVal c2) cs2 else none
    else if c.isDigit then digitsGo (acc * 10 + digitVal c) cs else none

/-- Parse one-or-more digits (with Python's underscore rule) into a `Nat`. -/
def parseDigits : List Char → Option Nat
  | [] => none
  | c :: cs => if c.isDigit then digitsGo (digitVal c) cs else none

/-- Python `int(str)`: optional surrounding whitespace, optional sign, digits
with single underscores between digits; `none` models a raised `ValueError`. -/
def pyInt (s : String) : Option Int :=
  match pyStripWS s.toList with
  | '+' :: rest =>
    match parseDigits rest with
    | some n => some (n : Int)
    | none => none
  | '-' :: rest =>
    match parseDigits rest with
    | some n => some (-(n : Int))
    | none => none
  | rest =>
    match parseDigits rest with
    | some n => some (n : Int)
    | none => none

/-! ## `extract_email` (src/utils/data_cleaner.py)

The pattern `\b[A-Za-z0-9._%+-]+@[A-Za-z0-9.-]+\.[A-Z|a-z]{2,}\b` is embedded
as a dedicated matcher.  `re.findall` semantics: starting positions are tried
left to right; at a position the local part `[A-Za-z0-9._%+-]+` is a maximal
run (its character class excludes `@`, so greedy matching cannot backtrack
usefully), the domain run `[A-Za-z0-9.-]+` is greedy and gives characters back
from the right until a literal `.` followed by at least two `[A-Z|a-z]`
characters and a trailing word boundary can match; the TLD run is greedy and
gives characters back until the boundary holds.  Scanning resumes after each
match (non-overlapping). -/

/-- Character class `[A-Za-z0-9._%+-]` (local part). -/
def localChar (c : Char) : Bool :=
  c.isAlphanum || c == '.' || c == '_' || c == '%' || c == '+' || c == '-'

/-- Character class `[A-Za-z0-9.-]` (domain part). -/
def domChar (c : Char) : Bool :=
  c.isAlphanum || c == '.' || c == '-'

/-- Character class `[A-Z|a-z]` — the source's class literally includes `|`. -/
def tldChar (c : Char) : Bool :=
  c.isAlpha || c == '|'

/-- Greedy TLD with final `\b`: try lengths `m, m-1, …, 2` over the run `run`,
where `rest` are the characters after the run. -/
def tryTld (pre : List Char) (run rest : List Char) : Nat → Option (List Char × List Char)
  | 0 => none
  | m + 1 =>
    if m + 1 < 2 then none
    else
      let tld := run.take (m + 1)
      let after := run.drop (m + 1) ++ rest
      match tld.getLast? with
      | none => none
      | some lc =>
        if wordChar lc != wordOpt after.head? then
          some (pre ++ tld, after)
        else
          tryTld pre run rest m

/-- Greedy domain with backtracking: try keeping `k, k-1, …, 1` characters of
the maximal domain run `dom`; the kept part must be followed by a literal `.`
(necessarily drawn from inside the run) and a valid TLD. -/
def tryDom (loc dom s3 : List Char) : Nat → Option (List Char × List Char)
  | 0 => none
  | k + 1 =>
    match dom.drop (k + 1) with
    | '.' :: restDom =>
      let rest1 := restDom ++ s3
      let run := rest1.takeWhile tldChar
      match tryTld (loc ++ '@' :: dom.take (k + 1) ++ ['.']) run (rest1.drop run.length)
              run.length with
      | some r => some r
      | none => tryDom loc dom s3 k
    | _ => tryDom loc dom s3 k

/-- Attempt an email match anchored at the current position, `prev` being the
previous character of the original string (for `\b`). Returns the matched
characters and the remainder. -/
def matchEmailAt (prev : Option Char) (s : List Char) : Option (List Char × List Char) :=
  let loc := s.takeWhile localChar
  let s1 := s.dropWhile localChar
  match loc.head? with
  | none => none
  | some c0 =>
    if wordOpt prev == wordChar c0 then none
    else
      match s1 with
      | '@' :: s2 =>
        let dom := s2.takeWhile domChar
        let s3 := s2.dropWhile domChar
        if dom.isEmpty then none else tryDom loc dom s3 dom.length
      | _ => none

/-- `re.findall` driver: scan left to right, emitting non-overlapping matches.
Fuel-driven; every step consumes at least one character. -/
def findGo : Nat → Option Char → List Char → List (List Char)
  | 0, _, _ => []
  | fuel + 1, prev, s =>
    match matchEmailAt prev s with
    | some (m, rest) => m :: findGo fuel m.getLast? rest
    | none =>
      match s with
      | [] => []
      | c :: cs => findGo fuel (some c) cs

/-- All matches of the email pattern in `s`, in order (`re.findall`). -/
def findEmails (s : List Char) : List (List Char) :=
  findGo (s.length + 1) none s

def institutional_domains : List String :=
  [".edu", ".ac.", ".uni-", "university", "college",
   "hospital", "institute", "research", ".gov", ".org",
   "clinic", "medical", "school", "lab", "center"]

def company_domains : List String :=
  ["pharma", "biotech", "therapeutics", "bioscience",
   "bio", "genetics", "genomics", "cell", "lifescience"]

def country_academic : List String := [".ac.cn", ".ac.jp", ".ac.kr", ".ac.il", ".ac.ir"]

def personal_domains : List String := ["gmail.com", "hotmail.com", "yahoo.com", "outlook.com"]

/-- `extract_email` (data_cleaner.py, lines 7–49): empty input gives `""`;
otherwise the first pattern match, lower-cased, is returned when any of the
four marker lists hits it, and the function falls through to `""` when none
does. -/
def extract_email (text : String) : String :=
  if text == "" then ""
  else
    match findEmails text.toList with
    | [] => ""
    | e :: _ =>
      let email := pyLower (String.mk e)
      if institutional_domains.any (fun d => strContains email d) then email
      else if company_domains.any (fun d => strContains email d) then email
      else if country_academic.any (fun d => strContains email d) then email
      else if personal_domains.any (fun d => strContains email d) then email
      else ""

/-- The disjunction of the four marker-list tests of `extract_email`. -/
def emailClassified (email : String) : Bool :=
  institutional_domains.any (fun d => strContains email d)
    || company_domains.any (fun d => strContains email d)
    || country_academic.any (fun d => strContains email d)
    || personal_domains.any (fun d => strContains email d)

/-! ## `clean_name` (src/utils/data_cleaner.py, lines 276–289)

`re.sub(r'\b(Ph\.?D\.?|M\.?D\.?|Prof\.?|Dr\.?|Mr\.?|Mrs\.?|Ms\.?)\b', '', name,
flags=re.IGNORECASE)` followed by whitespace collapsing and `str.title()`.
Each alternative starts with a letter, so the leading `\b` holds exactly when
the previous character is not a word character.  A trailing `\.?\b` consumes
the dot only when the character after the dot is a word character (otherwise
the boundary fails after the dot and the greedy optional dot backtracks to the
bare form, whose boundary letter/dot always holds). -/

/-- Optional `.` followed by the (lower-case) letter `target`, as in the middle
of `Ph\.?D` / `M\.?D`: the dot is consumed only when `target` follows it. -/
def optDotThen (target : Char) (s : List Char) : Option (List Char) :=
  match s with
  | '.' :: c :: rest => if c.toLower == target then some rest else none
  | c :: rest => if c.toLower == target then some rest else none
  | [] => none

/-- Trailing `\.?\b` after a letter: greedy dot first (boundary needs a word
character after the dot), else the bare position (boundary needs a non-word
character or the end next). -/
def optDotEndB (s : List Char) : Option (List Char) :=
  match s with
  | '.' :: rest => if wordOpt rest.head? then some rest else some ('.' :: rest)
  | rest => if wordOpt rest.head? then none else some rest

/-- First-of alternation on `Option`. -/
def orO {α : Type} : Option α → Option α → Option α
  | some a, _ => some a
  | none, b => b

/-- Alternative `Ph\.?D\.?` (case-insensitive). -/
def altPhD (s : List Char) : Option (List Char) :=
  match stripIC ['p', 'h'] s with
  | some r1 =>
    match optDotThen 'd' r1 with
    | some r2 => optDotEndB r2
    | none => none
  | none => none

/-- Alternative `M\.?D\.?` (case-insensitive). -/
def altMD (s : List Char) : Option (List Char) :=
  match stripIC ['m'] s with
  | some r1 =>
    match optDotThen 'd' r1 with
    | some r2 => optDotEndB r2
    | none => none
  | none => none

/-- Alternatives `Prof\.?`, `Dr\.?`, `Mr\.?`, `Mrs\.?`, `Ms\.?`. -/
def altLit (lit : List Char) (s : List Char) : Option (List Char) :=
  match stripIC lit s with
  | some r => optDotEndB r
  | none => none

/-- Try the seven alternation branches in the pattern's order; returns the
remainder after the matched title token. -/
def tryTitleTok (s : List Char) : Option (List Char) :=
  orO (altPhD s)
    (orO (altMD s)
      (orO (altLit ['p', 'r', 'o', 'f'] s)
        (orO (altLit ['d', 'r'] s)
          (orO (altLit ['m', 'r'] s)
            (orO (altLit ['m', 'r', 's'] s)
              (altLit ['m', 's'] s))))))

/-- `re.sub(..., '', name)` driver: scan with the previous original character
(for `\b`); matched tokens are dropped, scanning resumes after each match.
All matches are non-empty, so `fuel = length + 1` suffices. -/
def subTitlesGo : Nat → Option Char → List Char → List Char
  | 0, _, s => s
  | fuel + 1, prev, s =>
    match s with
    | [] => []
    | c :: cs =>
      if wordOpt prev then c :: subTitlesGo fuel (some c) cs
      else
        match tryTitleTok s with
        | some rest =>
          subTitlesGo fuel ((s.take (s.length - rest.length)).getLast?) rest
        | none => c :: subTitlesGo fuel (some c) cs

/-- The `re.sub` of `clean_name`. -/
def subTitles (l : List Char) : List Char :=
  subTitlesGo (l.length + 1) none l

/-- `clean_name` (data_cleaner.py): strip title tokens, collapse whitespace
(`' '.join(name.split())`), then `str.title()`. -/
def clean_name (name : String) : String :=
  if name == "" then ""
  else pyTitle (String.mk (List.intercalate [' '] (splitWS (subTitles name.toList))))

/-! ## `extract_location` (src/utils/data_cleaner.py, lines 51–274)

Layered resolution: institution dictionary (ordered, substring on the
lower-cased affiliation), a four-pattern regex cascade over the original
string with `re.IGNORECASE`, a common-city list, a country-keyword table, a
token fallback, and finally `"Unknown"` — except that an empty affiliation
returns `""` up front.

Under `re.IGNORECASE` the sub-pattern `[A-Z][a-z]+(?:\s+[A-Z][a-z]+)*`
("NAME") matches: a run of two or more letters, followed by any number of
(whitespace run, two-or-more-letter run) groups.  Greedy backtracking tries
the possible NAME end positions in strictly decreasing order, and those end
positions are exactly the prefixes that fully match NAME; `nameEnds`
enumerates them in that order. -/

/-- Full anchored match of NAME's word tail `(?:\s+[A-Z][a-z]+)*` (with
IGNORECASE): zero or more groups of (whitespace{1,}, letter{2,}).  Fuel-driven;
each group consumes at least three characters. -/
def nameTail : Nat → List Char → Bool
  | _, [] => true
  | 0, _ => false
  | fuel + 1, l =>
    let sp := l.takeWhile pySpace
    let r1 := l.dropWhile pySpace
    let w := r1.takeWhile Char.isAlpha
    decide (1 ≤ sp.length) && decide (2 ≤ w.length)
      && nameTail fuel (r1.dropWhile Char.isAlpha)

/-- Full anchored match of NAME (letter{2,} then word tail). -/
def isNameList (l : List Char) : Bool :=
  let w := l.takeWhile Char.isAlpha
  decide (2 ≤ w.length) && nameTail l.length (l.dropWhile Char.isAlpha)

/-- The candidate NAME end positions at the current position, in the
decreasing order greedy backtracking tries them. -/
def nameEnds (s : List Char) : List Nat :=
  ((List.range (s.length + 1)).reverse).filter (fun e => isNameList (s.take e))

/-- Scan driver shared by the four `re.search` patterns: positions are tried
left to right; all patterns start with `\b` followed by a letter, so a
position qualifies only when the previous character is not a word character. -/
def scanGo {γ : Type} (tryAt : List Char → Option γ) : Nat → Option Char → List Char → Option γ
  | 0, _, _ => none
  | fuel + 1, prev, s =>
    match (if wordOpt prev then none else tryAt s) with
    | some r => some r
    | none =>
      match s with
      | [] => none
      | c :: cs => scanGo tryAt fuel (some c) cs

/-- Pattern (a) `\b NAME , \s* ([A-Z]{2}) \b` at one position: groups
(city, two-letter region). -/
def patA_at (s : List Char) : Option (String × String) :=
  (nameEnds s).findSome? (fun e =>
    match s.drop e with
    | ',' :: r2 =>
      let r3 := r2.dropWhile pySpace
      match r3 with
      | c1 :: c2 :: r4 =>
        if c1.isAlpha && c2.isAlpha && !wordOpt r4.head? then
          some (String.mk (s.take e), String.mk [c1, c2])
        else none
      | _ => none
    | _ => none)

/-- Pattern (b) `\b NAME , \s* NAME \b` at one position: groups
(city, region); the second NAME also backtracks to satisfy its trailing `\b`. -/
def patB_at (s : List Char) : Option (String × String) :=
  (nameEnds s).findSome? (fun e =>
    match s.drop e with
    | ',' :: r2 =>
      let r3 := r2.dropWhile pySpace
      (nameEnds r3).findSome? (fun e2 =>
        if !wordOpt (r3.drop e2).head? then
          some (String.mk (s.take e), String.mk (r3.take e2))
        else none)
    | _ => none)

/-- Pattern (c) `\b (?:University|College|Institute|School) \s+ (?:of|at|in)
\s+ NAME \b` at one position: group (city). -/
def patC_at (s : List Char) : Option String :=
  match (["university", "college", "institute", "school"].findSome?
          (fun kw => stripIC kw.toList s)) with
  | none => none
  | some r1 =>
    if (r1.takeWhile pySpace).isEmpty then none
    else
      let r2 := r1.dropWhile pySpace
      match (["of", "at", "in"].findSome? (fun p => stripIC p.toList r2)) with
      | none => none
      | some r3 =>
        if (r3.takeWhile pySpace).isEmpty then none
        else
          let r4 := r3.dropWhile pySpace
          (nameEnds r4).findSome? (fun e =>
            if !wordOpt (r4.drop e).head? then some (String.mk (r4.take e)) else none)

/-- Pattern (d) `\b NAME \s+ (?:University|College|Institute) \b` at one
position: group (city). -/
def patD_at (s : List Char) : Option String :=
  (nameEnds s).findSome? (fun e =>
    let r := s.drop e
    if (r.takeWhile pySpace).isEmpty then none
    else
      let r2 := r.dropWhile pySpace
      match (["university", "college", "institute"].findSome?
              (fun kw => stripIC kw.toList r2)) with
      | some r3 => if !wordOpt r3.head? then some (String.mk (s.take e)) else none
      | none => none)

/-- `re.search` for pattern (a). -/
def searchPatA (s : List Char) : Option (String × String) :=
  scanGo patA_at (s.length + 1) none s

/-- `re.search` for pattern (b). -/
def searchPatB (s : List Char) : Option (String × String) :=
  scanGo patB_at (s.length + 1) none s

/-- `re.search` for pattern (c). -/
def searchPatC (s : List Char) : Option String :=
  scanGo patC_at (s.length + 1) none s

/-- `re.search` for pattern (d). -/
def searchPatD (s : List Char) : Option String :=
  scanGo patD_at (s.length + 1) none s

/-- The two-group handler: `City, RG, USA` when the region is two uppercase
letters, else `City, Region`. -/
def fmtRegion (city region : String) : String :=
  if region.length == 2 && pyIsUpper region then city ++ ", " ++ region ++ ", USA"
  else city ++ ", " ++ region

/-- Layer 2: the regex cascade, first matching pattern wins. -/
def regexLayer (affiliation : String) : Option String :=
  match searchPatA affiliation.toList with
  | some (city, region) => some (fmtRegion city region)
  | none =>
    match searchPatB affiliation.toList with
    | some (city, region) => some (fmtRegion city region)
    | none =>
      match searchPatC affiliation.toList with
      | some city => some city
      | none =>
        match searchPatD affiliation.toList with
        | some city => some city
        | none => none

/-- The university→city dictionary, in the source's insertion order (Python
dicts preserve insertion order; overlapping keys make it significant). -/
def university_city_map : List (String × String) :=
  [("harvard", "Boston, MA, USA"),
   ("stanford", "Stanford, CA, USA"),
   ("mit", "Cambridge, MA, USA"),
   ("caltech", "Pasadena, CA, USA"),
   ("princeton", "Princeton, NJ, USA"),
   ("yale", "New Haven, CT, USA"),
   ("columbia", "New York, NY, USA"),
   ("uchicago", "Chicago, IL, USA"),
   ("upenn", "Philadelphia, PA, USA"),
   ("johns hopkins", "Baltimore, MD, USA"),
   ("duke", "Durham, NC, USA"),
   ("cornell", "Ithaca, NY, USA"),
   ("northwestern", "Evanston, IL, USA"),
   ("washington university", "St. Louis, MO, USA"),
   ("vanderbilt", "Nashville, TN, USA"),
   ("emory", "Atlanta, GA, USA"),
   ("university of california", "California, USA"),
   ("uc berkeley", "Berkeley, CA, USA"),
   ("ucla", "Los Angeles, CA, USA"),
   ("usc", "Los Angeles, CA, USA"),
   ("university of michigan", "Ann Arbor, MI, USA"),
   ("university of texas", "Austin, TX, USA"),
   ("university of washington", "Seattle, WA, USA"),
   ("university of illinois", "Urbana, IL, USA"),
   ("illinois urbana", "Urbana, IL, USA"),
   ("university of florida", "Gainesville, FL, USA"),
   ("university of colorado", "Denver, CO, USA"),
   ("university of southern california", "Los Angeles, CA, USA"),
   ("university of tennessee", "Knoxville, TN, USA"),
   ("university of notre dame", "Notre Dame, IN, USA"),
   ("university of virginia", "Charlottesville, VA, USA"),
   ("university of wisconsin", "Madison, WI, USA"),
   ("university of minnesota", "Minneapolis, MN, USA"),
   ("oxford", "Oxford, UK"),
   ("cambridge", "Cambridge, UK"),
   ("imperial college", "London, UK"),
   ("ucl", "London, UK"),
   ("kings college", "London, UK"),
   ("london school", "London, UK"),
   ("manchester", "Manchester, UK"),
   ("edinburgh", "Edinburgh, UK"),
   ("bristol", "Bristol, UK"),
   ("glasgow", "Glasgow, UK"),
   ("birmingham", "Birmingham, UK"),
   ("leeds", "Leeds, UK"),
   ("sheffield", "Sheffield, UK"),
   ("liverpool", "Liverpool, UK"),
   ("eth zurich", "Zurich, Switzerland"),
   ("karolinska", "Stockholm, Sweden"),
   ("university of copenhagen", "Copenhagen, Denmark"),
   ("copenhagen university", "Copenhagen, Denmark"),
   ("lund university", "Lund, Sweden"),
   ("radboud university", "Nijmegen, Netherlands"),
   ("kuleuven", "Leuven, Belgium"),
   ("university of amsterdam", "Amsterdam, Netherlands"),
   ("university of helsinki", "Helsinki, Finland"),
   ("university of oslo", "Oslo, Norway"),
   ("university of tokyo", "Tokyo, Japan"),
   ("kyoto university", "Kyoto, Japan"),
   ("tokyo university", "Tokyo, Japan"),
   ("tsinghua university", "Beijing, China"),
   ("peking university", "Beijing, China"),
   ("zhejiang university", "Hangzhou, China"),
   ("shanghai jiao tong", "Shanghai, China"),
   ("fudan university", "Shanghai, China"),
   ("nankai university", "Tianjin, China"),
   ("wuhan university", "Wuhan, China"),
   ("university of hong kong", "Hong Kong, China"),
   ("national university of singapore", "Singapore"),
   ("seoul national university", "Seoul, South Korea"),
   ("korea university", "Seoul, South Korea"),
   ("yonsei university", "Seoul, South Korea"),
   ("chung-ang university", "Seoul, South Korea"),
   ("ang university", "Seoul, South Korea"),
   ("university of guilan", "Rasht, Iran"),
   ("guilan university", "Rasht, Iran"),
   ("university of tehran", "Tehran, Iran"),
   ("shenzhen institutes", "Shenzhen, China"),
   ("siat", "Shenzhen, China"),
   ("chinese academy of sciences", "Beijing, China"),
   ("cas", "Beijing, China"),
   ("university of technology", "Shijiazhuang, China"),
   ("research center for human tissue", "Shenzhen, China"),
   ("ningbo university", "Ningbo, China"),
   ("jinan university", "Guangzhou, China"),
   ("southeast university", "Nanjing, China"),
   ("hee university", "Seoul, South Korea")]

/-- Layer 1: first dictionary key occurring as a substring of the lower-cased
affiliation wins. -/
def uniMapLookup (affLower : String) : Option String :=
  match university_city_map.find? (fun kv => strContains affLower kv.1) with
  | some kv => some kv.2
  | none => none

def common_cities : List String :=
  ["Boston", "Cambridge", "San Francisco", "New York", "Chicago", "Los Angeles",
   "Philadelphia", "Baltimore", "Seattle", "Houston", "Atlanta", "Durham",
   "London", "Oxford", "Manchester", "Edinburgh", "Bristol", "Glasgow",
   "Paris", "Lyon", "Marseille", "Berlin", "Munich", "Frankfurt", "Hamburg",
   "Zurich", "Geneva", "Basel", "Stockholm", "Uppsala", "Copenhagen", "Oslo",
   "Tokyo", "Kyoto", "Osaka", "Beijing", "Shanghai", "Hong Kong", "Singapore",
   "Sydney", "Melbourne", "Toronto", "Vancouver", "Montreal", "Seoul",
   "Mumbai", "Delhi", "Bangalore", "Moscow", "Saint Petersburg", "Warsaw",
   "Madrid", "Barcelona", "Rome", "Milan", "Vienna", "Prague", "Budapest"]

/-- Layer 3: first common city occurring in the lower-cased affiliation; a
country suffix is added for the hard-coded subsets (the `Cambridge` entry of
the USA subset shadows the UK branch). -/
def cityLayer (affLower : String) : Option String :=
  match common_cities.find? (fun c => strContains affLower (pyLower c)) with
  | none => none
  | some city =>
    if ["Boston", "Cambridge", "San Francisco", "New York", "Chicago"].contains city then
      some (city ++ ", USA")
    else if ["London", "Oxford", "Cambridge", "Manchester"].contains city then
      some (city ++ ", UK")
    else if ["Tokyo", "Kyoto", "Osaka"].contains city then
      some (city ++ ", Japan")
    else if ["Beijing", "Shanghai", "Hong Kong"].contains city then
      some (city ++ ", China")
    else if ["Seoul"].contains city then
      some (city ++ ", South Korea")
    else some city

/-- The country-keyword table, in the source's insertion order. -/
def countries : List (String × String) :=
  [("usa", "USA"), ("united states", "USA"), ("america", "USA"),
   ("uk", "UK"), ("united kingdom", "UK"), ("britain", "UK"), ("england", "UK"),
   ("china", "China"), ("chinese", "China"),
   ("japan", "Japan"), ("japanese", "Japan"),
   ("korea", "South Korea"), ("korean", "South Korea"),
   ("germany", "Germany"), ("german", "Germany"),
   ("france", "France"), ("french", "France"),
   ("italy", "Italy"), ("italian", "Italy"),
   ("spain", "Spain"), ("spanish", "Spain"),
   ("canada", "Canada"), ("canadian", "Canada"),
   ("australia", "Australia"), ("australian", "Australia"),
   ("india", "India"), ("indian", "India"),
   ("brazil", "Brazil"), ("brazilian", "Brazil"),
   ("russia", "Russia"), ("russian", "Russia"),
   ("iran", "Iran"), ("persian", "Iran"),
   ("israel", "Israel"), ("israeli", "Israel"),
   ("sweden", "Sweden"), ("swedish", "Sweden"),
   ("denmark", "Denmark"), ("danish", "Denmark"),
   ("norway", "Norway"), ("norwegian", "Norway"),
   ("finland", "Finland"), ("finnish", "Finland"),
   ("netherlands", "Netherlands"), ("dutch", "Netherlands"),
   ("switzerland", "Switzerland"), ("swiss", "Switzerland"),
   ("belgium", "Belgium"), ("belgian", "Belgium")]

/-- Layer 4: first country keyword occurring in the lower-cased affiliation. -/
def countryLayer (affLower : String) : Option String :=
  match countries.find? (fun kv => strContains affLower kv.1) with
  | some kv => some kv.2
  | none => none

def skip_words : List String :=
  ["university", "college", "institute", "center", "centre", "department",
   "school", "laboratory", "lab", "research", "science", "sciences",
   "technology", "medical", "medicine", "health", "national", "international",
   "faculty", "division", "unit", "program", "group", "team", "section",
   "office", "campus", "biomolecular", "engineering", "biology", "systems",
   "cell", "molecular", "chemical", "physical", "clinical", "bio", "tissue",
   "organ", "human", "animal", "plant", "development", "studies", "hospital",
   "clinic", "academy", "foundation", "corporation", "incorporated", "limited"]

/-- The punctuation set of `word.strip('.,;:()[]\x7b\x7d')`. -/
def stripPunct : List Char :=
  ['.', ',', ';', ':', '(', ')', '[', ']', '\x7b', '\x7d']

/-- Layer 5: first whitespace token whose stripped, title-cased form is longer
than 2, starts with an uppercase letter, is not a stoplist word and is not all
digits. -/
def fallbackWord (l : List Char) : Option String :=
  (splitWS l).findSome? (fun w =>
    let cw := pyTitle (String.mk (pyStripChars stripPunct w))
    if cw != "" && decide (2 < cw.length)
        && (match cw.toList.head? with
            | some c => c.isUpper
            | none => false)
        && !skip_words.contains (pyLower cw) && !pyIsDigit cw
    then some cw else none)

/-- `extract_location` (data_cleaner.py): the layered resolver.  An empty
affiliation short-circuits to `""`. -/
def extract_location (affiliation : String) : String :=
  if affiliation == "" then ""
  else
    let affLower := pyLower affiliation
    match uniMapLookup affLower with
    | some city => city
    | none =>
      match regexLayer affiliation with
      | some loc => loc
      | none =>
        match cityLayer affLower with
        | some loc => loc
        | none =>
          match countryLayer affLower with
          | some c => c
          | none =>
            match fallbackWord affiliation.toList with
            | some w => w
            | none => "Unknown"

/-! ## Lead records and batch deduplication
(src/scraper/pubmed_scraper.py, lines 227–238)

The record builder's post-processing step is
`df.drop_duplicates(subset=['email'], keep='first')`: the first row of each
email value — whatever that value is, the empty string included — is kept and
later rows with the same email are dropped. -/

/-- A normalized lead record.  Every field the pipeline reads is present;
`score` is the column added by the scorer (`row.get('score', 0)` of the ranker
defaults it to 0, so the field is total here). -/
structure Lead where
  name : String
  title : String
  company : String
  affiliation : String
  location : String
  email : String
  paper_title : String
  paper_date : String
  journal : String
  is_corresponding_author : Bool
  data_source : String
  search_keywords : String
  score : Int
deriving DecidableEq, Repr

/-- `drop_duplicates(subset=['email'], keep='first')`, with the set of
already-seen email values threaded through. -/
def dedupGo (seen : List String) : List Lead → List Lead
  | [] => []
  | x :: xs =>
    if seen.contains x.email then dedupGo seen xs
    else x :: dedupGo (x.email :: seen) xs

/-- Batch deduplication by email, first occurrence kept. -/
def dedup_by_email (l : List Lead) : List Lead :=
  dedupGo [] l

/-! ## The scorer (src/scoring/score_calculator.py)

The configuration document is a record of optional fields; a `KeyError` raised
by a missing subscript is the `Except` error.  `LeadScorer.__init__` resolves
the configuration file: when the file is absent at both candidate paths the
code writes a default configuration `{"search_terms": [...],
"scoring_weights": {"title_match": 30, "recent_publication": 40}}` and loads
it; `self.weights = self.config['scoring_weights']` is the only subscript
taken at construction time.  `datetime.now()` is the explicit `now`
argument. -/

/-- A Python datetime instant (microsecond precision, as compared by
`datetime.__le__`). -/
structure PyDateTime where
  year : Nat
  month : Nat
  day : Nat
  hour : Nat
  minute : Nat
  second : Nat
  micro : Nat
deriving DecidableEq, Repr

/-- `datetime` comparison: lexicographic on the seven components. -/
def dtLe (a b : PyDateTime) : Bool :=
  if a.year != b.year then a.year < b.year
  else if a.month != b.month then a.month < b.month
  else if a.day != b.day then a.day < b.day
  else if a.hour != b.hour then a.hour < b.hour
  else if a.minute != b.minute then a.minute < b.minute
  else if a.second != b.second then a.second < b.second
  else a.micro ≤ b.micro

/-- Gregorian leap year. -/
def isLeapYear (y : Nat) : Bool :=
  (y % 4 == 0 && y % 100 != 0) || y % 400 == 0

/-- Days in a month. -/
def daysInMonth (y m : Nat) : Nat :=
  if m == 2 then (if isLeapYear y then 29 else 28)
  else if m == 4 || m == 6 || m == 9 || m == 11 then 30
  else 31

/-- `strptime`'s `%Y`: exactly four digits. -/
def parseYear4 (l : List Char) : Option (Nat × List Char) :=
  match l with
  | a :: b :: c :: d :: rest =>
    if a.isDigit && b.isDigit && c.isDigit && d.isDigit then
      some (digitVal a * 1000 + digitVal b * 100 + digitVal c * 10 + digitVal d, rest)
    else none
  | _ => none

/-- `strptime`'s `%m`: the regex alternation `1[0-2]|0[1-9]|[1-9]`, tried in
that order (no backtracking across the later full-consumption check). -/
def parseMonth (l : List Char) : Option (Nat × List Char) :=
  match l with
  | '1' :: c :: rest =>
    if c == '0' || c == '1' || c == '2' then some (10 + digitVal c, rest)
    else some (1, c :: rest)
  | ['1'] => some (1, [])
  | '0' :: c :: rest =>
    if c.isDigit && c != '0' then some (digitVal c, rest) else none
  | c :: rest =>
    if c.isDigit && c != '0' then some (digitVal c, rest) else none
  | [] => none

/-- `strptime`'s `%d`: the regex alternation `3[01]|[12]\d|0[1-9]|[1-9]`. -/
def parseDay (l : List Char) : Option (Nat × List Char) :=
  match l with
  | '3' :: c :: rest =>
    if c == '0' || c == '1' then some (30 + digitVal c, rest)
    else some (3, c :: rest)
  | ['3'] => some (3, [])
  | '1' :: c :: rest =>
    if c.isDigit then some (10 + digitVal c, rest) else some (1, c :: rest)
  | ['1'] => some (1, [])
  | '2' :: c :: rest =>
    if c.isDigit then some (20 + digitVal c, rest) else some (2, c :: rest)
  | ['2'] => some (2, [])
  | '0' :: c :: rest =>
    if c.isDigit && c != '0' then some (digitVal c, rest) else none
  | c :: rest =>
    if c.isDigit && c != '0' then some (digitVal c, rest) else none
  | [] => none

/-- `datetime.strptime(s, "%Y-%m-%d")` followed by `datetime(y, m, d)`
validation (year ≥ 1, day within month); the whole string must be consumed. -/
def strptimeYMD (l : List Char) : Option (Nat × Nat × Nat) :=
  match parseYear4 l with
  | none => none
  | some (y, r1) =>
    match r1 with
    | '-' :: r2 =>
      match parseMonth r2 with
      | none => none
      | some (m, r3) =>
        match r3 with
        | '-' :: r4 =>
          match parseDay r4 with
          | none => none
          | some (d, r5) =>
            if r5.isEmpty && 1 ≤ y && d ≤ daysInMonth y m then some (y, m, d) else none
        | _ => none
    | _ => none

/-- `datetime.strptime(s, "%Y-%m")` then `datetime(y, m, 1)`. -/
def strptimeYM (l : List Char) : Option (Nat × Nat × Nat) :=
  match parseYear4 l with
  | none => none
  | some (y, r1) =>
    match r1 with
    | '-' :: r2 =>
      match parseMonth r2 with
      | none => none
      | some (m, r3) => if r3.isEmpty && 1 ≤ y then some (y, m, 1) else none
    | _ => none

/-- `datetime.strptime(s, "%Y")` then `datetime(y, 1, 1)`. -/
def strptimeY (l : List Char) : Option (Nat × Nat × Nat) :=
  match parseYear4 l with
  | none => none
  | some (y, r1) => if r1.isEmpty && 1 ≤ y then some (y, 1, 1) else none

/-- The format loop of `_is_recent_publication`: `%Y-%m-%d`, `%Y-%m`, `%Y` in
order, a `ValueError` (regex failure, leftover input, or invalid date) moving
on to the next format. -/
def tryParseDate (l : List Char) : Option (Nat × Nat × Nat) :=
  match strptimeYMD l with
  | some d => some d
  | none =>
    match strptimeYM l with
    | some d => some d
    | none => strptimeY l

/-- `LeadScorer._is_recent_publication`: parse and compare against
`datetime.now().replace(year=datetime.now().year - 2)`; the bare `except`
converts a `ValueError` from `.replace` (Feb 29 to a non-leap year, or a year
below `datetime.MINYEAR`) into `False`. -/
def is_recent_publication (now : PyDateTime) (s : String) : Bool :=
  if s == "" then false
  else
    match tryParseDate s.toList with
    | none => false
    | some (y, m, d) =>
      if now.month == 2 && now.day == 29 && !isLeapYear (now.year - 2) then false
      else if now.year < 3 then false
      else
        dtLe { now with year := now.year - 2 } ⟨y, m, d, 0, 0, 0, 0⟩

/-- A raised Python exception relevant to the scorer: subscripting a missing
key. -/
inductive PyErr where
  | keyError
deriving DecidableEq, Repr

/-- The `scoring_weights` mapping; each key optional, subscripting a missing
one raises `KeyError`.  Only the five keys `calculate_score` reads are
modelled. -/
structure ScoringWeights where
  title_match : Option Int
  recent_publication : Option Int
  hub_location : Option Int
  corresponding_author : Option Int
  tech_usage : Option Int
deriving DecidableEq, Repr

/-- The loaded configuration document (keywords.json); each top-level key
optional. -/
structure ScorerConfig where
  search_terms : Option (List String)
  scoring_weights : Option ScoringWeights
  high_score_keywords : Option (List String)
  hub_locations : Option (List String)
  high_score_titles : Option (List String)
deriving DecidableEq, Repr

/-- The default configuration `__init__` writes and loads when the file is
missing at both candidate paths. -/
def default_config : ScorerConfig :=
  { search_terms := some ["Drug-Induced Liver Injury"]
    scoring_weights := some
      { title_match := some 30, recent_publication := some 40
        hub_location := none, corresponding_author := none, tech_usage := none }
    high_score_keywords := none
    hub_locations := none
    high_score_titles := none }

/-- A constructed scorer: the loaded config and
`self.weights = self.config['scoring_weights']`. -/
structure LeadScorer where
  config : ScorerConfig
  weights : ScoringWeights
deriving DecidableEq, Repr

/-- `LeadScorer.__init__`: `none` models the configuration file being absent
at both candidate paths (the code then writes and loads `default_config`);
`some cfg` models the loaded file.  The single construction-time subscript is
`config['scoring_weights']`. -/
def scorer_init (file : Option ScorerConfig) : Except PyErr LeadScorer :=
  let cfg := match file with
    | none => default_config
    | some c => c
  match cfg.scoring_weights with
  | none => .error .keyError
  | some w => .ok ⟨cfg, w⟩

/-- Subscript an optional key: `KeyError` when missing. -/
def req {α : Type} : Option α → Except PyErr α
  | some a => .ok a
  | none => .error .keyError

def tech_keywords : List String := ["3d", "in vitro", "organ-on-chip"]

def company_markers : List String := ["bio", "pharma", "therapeutics", "biotech"]

/-- A conditional weight bonus: subscript the weight (possibly raising
`KeyError`) only when the rule fires, else contribute 0 — the shape of each
`score += self.weights[...]`-inside-`if` in the source. -/
def bonus (c : Bool) (w : Option Int) : Except PyErr Int :=
  if c then req w else pure 0

/-- `LeadScorer.calculate_score` (score_calculator.py, lines 44–94): the seven
additive rules in source order; config/weight subscripts are taken exactly
where the source takes them (the keyword, hub and title lists
unconditionally, a weight — via `bonus` — only when its rule fires); the sum
is capped by `min(score, 100)`. -/
def calculate_score (now : PyDateTime) (sc : LeadScorer) (lead : Lead) : Except PyErr Int := do
  let title := pyLower lead.title
  let ks ← req sc.config.high_score_keywords
  let s1 ← bonus (ks.any (fun k => strContains title (pyLower k))) sc.weights.title_match
  let s2 ← bonus (is_recent_publication now lead.paper_date) sc.weights.recent_publication
  let hubs ← req sc.config.hub_locations
  let location := pyLower lead.location
  let s3 ← bonus (hubs.any (fun h => strContains location (pyLower h))) sc.weights.hub_location
  let s4 ← bonus lead.is_corresponding_author sc.weights.corresponding_author
  let hts ← req sc.config.high_score_titles
  let s5 : Int := if hts.any (fun t => strContains title (pyLower t)) then 20 else 0
  let search_text := pyLower (lead.paper_title ++ " " ++ lead.search_keywords)
  let s6 ← bonus (tech_keywords.any (fun k => strContains search_text (pyLower k)))
    sc.weights.tech_usage
  let company := pyLower lead.company
  let s7 : Int := if company_markers.any (fun w => strContains company w) then 10 else 0
  pure (min (s1 + s2 + s3 + s4 + s5 + s6 + s7) 100)

/-! ## The ranker (src/scoring/ranker.py)

`_calculate_priority` sums `score/100` and three fixed bonuses; the decimal
literals are modelled exactly in `ℚ`.  `rank_leads` sorts the batch by
priority score descending (`df.sort_values('priority_score',
ascending=False)` — the sort is modelled as a stable descending insertion
sort; pandas' default sort kind is numpy's unstable `'quicksort'`, a
divergence recorded against the ranking claim, which does not affect the rank
*multiset* assigned afterwards), resets the index and assigns
`final_rank = position + 1`. -/

/-- The ranker's hard-coded hub list. -/
def ranker_hub_locations : List String :=
  ["boston", "cambridge", "san francisco", "london",
   "new york", "basel", "zurich", "tokyo", "singapore"]

/-- `LeadRanker._calculate_priority` (ranker.py, lines 71–105). -/
def calculate_priority (now : PyDateTime) (row : Lead) : ℚ :=
  let base_score : ℚ := (row.score : ℚ) / 100
  let author_bonus : ℚ := if row.is_corresponding_author then 1/10 else 0
  let recency_bonus : ℚ :=
    if row.paper_date != "" then
      if 4 ≤ row.paper_date.length then
        match pyInt (String.mk (row.paper_date.toList.take 4)) with
        | some year => if (now.year : Int) - 1 ≤ year then 1/20 else 0
        | none => 0
      else 0
    else 0
  let location_bonus : ℚ :=
    if row.location != "" then
      if ranker_hub_locations.any (fun h => strContains (pyLower row.location) h) then 1/20
      else 0
    else 0
  base_score + author_bonus + recency_bonus + location_bonus

/-- A lead enriched by the ranker. -/
structure RankedLead where
  lead : Lead
  priority_score : ℚ
  final_rank : Nat
deriving DecidableEq, Repr

/-- Stable descending insertion: `x` goes in front of the first element with a
strictly smaller priority, so equal priorities keep their relative order. -/
def insertDesc (x : Lead × ℚ) : List (Lead × ℚ) → List (Lead × ℚ)
  | [] => [x]
  | y :: ys => if y.2 < x.2 then x :: y :: ys else y :: insertDesc x ys

/-- Stable descending insertion sort on the priority key. -/
def sortDesc : List (Lead × ℚ) → List (Lead × ℚ)
  | [] => []
  | x :: xs => insertDesc x (sortDesc xs)

/-- `LeadRanker.rank_leads` (ranker.py, lines 11–33): compute priority scores,
sort descending, reset the index and set `final_rank = index + 1`.  (The
column reordering of lines 35–67 permutes fields, not rows, and is not
modelled.) -/
def rank_leads (now : PyDateTime) (rows : List Lead) : List RankedLead :=
  let sorted := sortDesc (rows.map (fun r => (r, calculate_priority now r)))
  sorted.enum.map (fun p => ⟨p.2.1, p.2.2, p.1 + 1⟩)

/-! ## Spec-side definitions and concrete fixtures used by the theorems -/

/-- The recency condition exactly as the ranking claim words it: the leading 4
characters of `paper_date` parse as an integer year ≥ current year − 1. -/
def spec_recent (now : PyDateTime) (s : String) : Bool :=
  match pyInt (String.mk (s.toList.take 4)) with
  | some year => decide ((now.year : Int) - 1 ≤ year)
  | none => false

/-- The hub condition exactly as the ranking claim words it: the lower-cased
location contains one of the nine hub cities. -/
def spec_hub (loc : String) : Bool :=
  ranker_hub_locations.any (fun h => strContains (pyLower loc) h)

/-- The priority formula exactly as the ranking claim words it. -/
def priority_spec (now : PyDateTime) (row : Lead) : ℚ :=
  (row.score : ℚ) / 100
    + (if row.is_corresponding_author then 1/10 else 0)
    + (if spec_recent now row.paper_date then 1/20 else 0)
    + (if spec_hub row.location then 1/20 else 0)

/-- A lead with every field empty (scores default to 0). -/
def emptyLead : Lead :=
  ⟨"", "", "", "", "", "", "", "", "", false, "", "", 0⟩

/-- Fixture: a lead with empty email. -/
def leadA : Lead :=
  { emptyLead with name := "Alice" }

/-- Fixture: a second, different lead with empty email. -/
def leadB : Lead :=
  { emptyLead with name := "Bob" }

/-- Fixture: a loaded configuration document with no keys at all. -/
def cfg_no_weights : ScorerConfig :=
  ⟨none, none, none, none, none⟩

/-- Fixture: a reference instant. -/
def someNow : PyDateTime := ⟨2025, 10, 12, 12, 0, 0, 0⟩

/-! ## Claim theorems -/

/-- C1 (counterexample): the affiliation `"a@b.fr"` contains exactly one
email-pattern match, yet `extract_email` returns `""` rather than the
lower-cased first match — the four marker tiers are not exhaustive. -/
theorem extract_email_found_but_empty :
    findEmails "a@b.fr".toList = ["a@b.fr".toList] ∧ extract_email "a@b.fr" = "" := by
  constructor
  · rfl
  · rfl

/-- C1 (amended): `extract_email` returns `""` when the pattern has no match;
when it has one, the lower-cased first match is returned exactly when it
contains one of the tier-1..4 marker substrings, and `""` otherwise. -/
theorem extract_email_spec (text : String) :
    extract_email text =
      (match findEmails text.toList with
       | [] => ""
       | e :: _ =>
         let email := pyLower (String.mk e)
         if emailClassified email then email else "") := by
  by_cases h : text = ""
  · subst h
    rfl
  · rw [extract_email]
    rw [if_neg (by simpa using h)]
    cases hE : findEmails text.toList with
    | nil => rfl
    | cons e es =>
      simp only [emailClassified]
      by_cases h1 : institutional_domains.any
          (fun d => strContains (pyLower (String.mk e)) d) = true
      · simp [h1]
      · by_cases h2 : company_domains.any
            (fun d => strContains (pyLower (String.mk e)) d) = true
        · simp [h1, h2]
        · by_cases h3 : country_academic.any
              (fun d => strContains (pyLower (String.mk e)) d) = true
          · simp [h1, h2, h3]
          · by_cases h4 : personal_domains.any
                (fun d => strContains (pyLower (String.mk e)) d) = true
            · simp [h1, h2, h3, h4]
            · simp [h1, h2, h3, h4]

/-- C2 (counterexample): two distinct records that both have the empty email;
deduplication keeps only the first, so records with empty email ARE
deduplicated against each other. -/
theorem dedup_drops_second_empty_email :
    leadA.email = "" ∧ leadB.email = "" ∧ leadA ≠ leadB ∧
      dedup_by_email [leadA, leadB] = [leadA] := by
  refine ⟨rfl, rfl, by decide, rfl⟩

/-- C9 (counterexample): `clean_name "Prof. John A. Smith, MD"` is not
`"John A. Smith"` — the `\.?\b` tail of the title pattern cannot consume a dot
followed by a space, so the dot of `"Prof."` and the comma before `"MD"`
survive. -/
theorem clean_name_example_ne :
    clean_name "Prof. John A. Smith, MD" ≠ "John A. Smith" := by
  decide

/-- C9 (amended): the example input actually cleans to `". John A. Smith,"`:
the bare tokens `Prof` and `MD` are removed, the trailing period of `"Prof."`
and the comma before `"MD"` remain, whitespace is collapsed and the result is
title-cased. -/
theorem clean_name_example :
    clean_name "Prof. John A. Smith, MD" = ". John A. Smith," := by
  rfl

/-- C10: the institution dictionary resolves the Harvard affiliation to
`"Boston, MA, USA"`; the `harvard` key is checked before `cambridge` and
before any regex layer, taking precedence over the literal `"Cambridge, MA"`
in the string. -/
theorem extract_location_harvard :
    extract_location "Dept. of Biology, Harvard University, Cambridge, MA"
      = "Boston, MA, USA" := by
  rfl

/-- C8 (counterexample): on the empty affiliation, `extract_location` returns
`""`, not the literal `"Unknown"` the claim asserts. -/
theorem extract_location_empty_ne_unknown :
    extract_location "" = "" ∧ extract_location "" ≠ "Unknown" := by
  refine ⟨rfl, by decide⟩

/-- C8 (amended): for every NON-empty affiliation on which no resolution layer
matches (institution dictionary, regex cascade, common cities, country
keywords, token fallback), `extract_location` returns the literal `"Unknown"`;
the empty affiliation instead short-circuits to `""`.  Totality of the Lean
function reflects that the Python function never raises. -/
theorem extract_location_unknown (aff : String) (h0 : aff ≠ "")
    (h1 : uniMapLookup (pyLower aff) = none)
    (h2 : regexLayer aff = none)
    (h3 : cityLayer (pyLower aff) = none)
    (h4 : countryLayer (pyLower aff) = none)
    (h5 : fallbackWord aff.toList = none) :
    extract_location aff = "Unknown" := by
  rw [extract_location, if_neg (by simpa using h0)]
  simp only [h1, h2, h3, h4, h5]

/-- C8 (witness): all layers miss on `"???"`, which resolves to `"Unknown"`. -/
theorem extract_location_unknown_witness :
    extract_location "???" = "Unknown" :=
  extract_location_unknown "???" (by decide) rfl rfl rfl rfl rfl

/-- C7 (counterexample): with the configuration file missing, construction
SUCCEEDS (the code silently writes and loads a default configuration instead
of failing fast), and the very first per-record score calculation then raises
`KeyError` (the default configuration lacks `high_score_keywords`) — the
failure surfaces mid-pipeline, not at load time. -/
theorem scorer_init_missing_file_defaults :
    scorer_init none =
        .ok ⟨default_config, ⟨some 30, some 40, none, none, none⟩⟩ ∧
      calculate_score someNow
          ⟨default_config, ⟨some 30, some 40, none, none, none⟩⟩ emptyLead
        = .error .keyError := by
  exact ⟨rfl, rfl⟩

/-- C7 (amended): construction fails with `KeyError` exactly when the LOADED
configuration lacks `scoring_weights`; a missing configuration file is
replaced by a silently created default and construction succeeds; every other
missing key (here `high_score_keywords`, unconditionally subscripted by
`calculate_score`) first raises during per-record scoring, for every lead. -/
theorem scorer_config_error_surface :
    (scorer_init none = .ok ⟨default_config, ⟨some 30, some 40, none, none, none⟩⟩)
    ∧ (∀ (now : PyDateTime) (lead : Lead),
        calculate_score now ⟨default_config, ⟨some 30, some 40, none, none, none⟩⟩ lead
          = .error .keyError)
    ∧ (∀ cfg : ScorerConfig, cfg.scoring_weights = none →
        scorer_init (some cfg) = .error .keyError)
    ∧ (∀ (cfg : ScorerConfig) (w : ScoringWeights), cfg.scoring_weights = some w →
        scorer_init (some cfg) = .ok ⟨cfg, w⟩) := by
  refine ⟨rfl, fun now lead => rfl, fun cfg h => ?_, fun cfg w h => ?_⟩
  · simp only [scorer_init, h]
  · simp only [scorer_init, h]

/-- C7 (witness): the amended theorem applied to the keyless configuration
document. -/
theorem scorer_config_error_surface_witness :
    scorer_init (some cfg_no_weights) = .error .keyError :=
  scorer_config_error_surface.2.2.1 cfg_no_weights rfl

/-- Helper: everything `dedupGo` emits has an email outside `seen`. -/
theorem dedupGo_email_not_seen (l : List Lead) :
    ∀ (seen : List String), ∀ r ∈ dedupGo seen l, seen.contains r.email = false := by
  induction l with
  | nil => intro seen r hr; simp [dedupGo] at hr
  | cons x xs ih =>
    intro seen r hr
    rw [dedupGo] at hr
    by_cases hx : seen.contains x.email
    · rw [if_pos hx] at hr
      exact ih seen r hr
    · rw [if_neg hx] at hr
      rcases List.mem_cons.mp hr with h | h
      · subst h
        simpa using hx
      · have := ih (x.email :: seen) r h
        simp only [List.contains_cons, Bool.or_eq_false_iff] at this
        exact this.2

/-- Helper: `dedupGo` returns a sublist of its input. -/
theorem dedupGo_sublist (l : List Lead) :
    ∀ seen : List String, List.Sublist (dedupGo seen l) l := by
  induction l with
  | nil => intro seen; simp [dedupGo]
  | cons x xs ih =>
    intro seen
    rw [dedupGo]
    by_cases hx : seen.contains x.email
    · rw [if_pos hx]
      exact (ih seen).cons x
    · rw [if_neg hx]
      exact (ih (x.email :: seen)).cons₂ x

/-- Helper: `dedupGo` emits at most one record per email value. -/
theorem dedupGo_count (l : List Lead) :
    ∀ (seen : List String) (e : String),
      ((dedupGo seen l).filter (fun r => r.email == e)).length ≤ 1 := by
  induction l with
  | nil => intro seen e; simp [dedupGo]
  | cons x xs ih =>
    intro seen e
    rw [dedupGo]
    by_cases hx : seen.contains x.email
    · rw [if_pos hx]
      exact ih seen e
    · rw [if_neg hx]
      by_cases he : x.email == e
      · rw [List.filter_cons_of_pos (by simpa using he)]
        have hnil : (dedupGo (x.email :: seen) xs).filter (fun r => r.email == e) = [] := by
          rw [List.filter_eq_nil_iff]
          intro r hr
          have := dedupGo_email_not_seen xs (x.email :: seen) r hr
          simp only [List.contains_cons, Bool.or_eq_false_iff] at this
          have hne : r.email ≠ x.email := by
            intro hEq
            rw [hEq] at this
            simp at this
          have hxe : x.email = e := by simpa using he
          simp [hxe ▸ hne]
        rw [hnil]
        simp
      · rw [List.filter_cons_of_neg (by simpa using he)]
        exact ih (x.email :: seen) e

/-- Helper: every record `dedupGo` keeps is the first of its email in the
input. -/
theorem dedupGo_first (l : List Lead) :
    ∀ (seen : List String), ∀ r ∈ dedupGo seen l,
      l.find? (fun x => x.email == r.email) = some r := by
  induction l with
  | nil => intro seen r hr; simp [dedupGo] at hr
  | cons x xs ih =>
    intro seen r hr
    rw [dedupGo] at hr
    by_cases hx : seen.contains x.email
    · rw [if_pos hx] at hr
      have hseen := dedupGo_email_not_seen xs seen r hr
      have hne : (x.email == r.email) = false := by
        by_contra hcon
        have : x.email = r.email := by
          have := eq_true_of_ne_false hcon
          simpa using this
        rw [this] at hx
        rw [hseen] at hx
        exact Bool.false_ne_true hx
      rw [List.find?_cons_of_neg _ (by simp [hne])]
      exact ih seen r hr
    · rw [if_neg hx] at hr
      rcases List.mem_cons.mp hr with h | h
      · subst h
        rw [List.find?_cons_of_pos _ (by simp)]
      · have hseen := dedupGo_email_not_seen xs (x.email :: seen) r h
        simp only [List.contains_cons, Bool.or_eq_false_iff] at hseen
        have hne : r.email ≠ x.email := by
          intro hEq
          rw [hEq] at hseen
          simp at hseen
        rw [List.find?_cons_of_neg _ (by simp [Ne.symm hne])]
        exact ih (x.email :: seen) r h

/-- C2 (amended): batch deduplication keeps, for EVERY email value — the empty
string included — exactly the first record carrying it: the result is a
sublist of the input, contains at most one record per email value, and each
kept record is the first record of its email value in input order.  (The
original claim's exception for empty emails does not hold:
`drop_duplicates(subset=['email'], keep='first')` treats `""` like any other
value.) -/
theorem dedup_by_email_spec (l : List Lead) :
    List.Sublist (dedup_by_email l) l
    ∧ (∀ e : String, ((dedup_by_email l).filter (fun r => r.email == e)).length ≤ 1)
    ∧ (∀ r ∈ dedup_by_email l, l.find? (fun x => x.email == r.email) = some r) :=
  ⟨dedupGo_sublist l [], fun e => dedupGo_count l [] e, fun r hr => dedupGo_first l [] r hr⟩

/-- C2 (witness): the amended theorem applied to the concrete two-record batch
with duplicate empty emails. -/
theorem dedup_by_email_spec_witness :
    List.Sublist (dedup_by_email [leadA, leadB]) [leadA, leadB]
    ∧ ((dedup_by_email [leadA, leadB]).filter (fun r => r.email == "")).length ≤ 1
    ∧ [leadA, leadB].find? (fun x => x.email == leadA.email) = some leadA :=
  ⟨(dedup_by_email_spec [leadA, leadB]).1,
   (dedup_by_email_spec [leadA, leadB]).2.1 "",
   (dedup_by_email_spec [leadA, leadB]).2.2 leadA (by decide)⟩

/-- Helper: inserting adds one to the length. -/
theorem insertDesc_length (x : Lead × ℚ) (l : List (Lead × ℚ)) :
    (insertDesc x l).length = l.length + 1 := by
  induction l with
  | nil => rfl
  | cons y ys ih =>
    rw [insertDesc]
    by_cases h : y.2 < x.2
    · rw [if_pos h]
      rfl
    · rw [if_neg h]
      simp [ih]

/-- Helper: sorting preserves the length. -/
theorem sortDesc_length (l : List (Lead × ℚ)) :
    (sortDesc l).length = l.length := by
  induction l with
  | nil => rfl
  | cons x xs ih =>
    rw [sortDesc, insertDesc_length, ih]
    rfl

/-- Helper: the successor of the index column of `enumFrom` is a contiguous
range. -/
theorem enumFrom_map_rank {α : Type} (l : List α) :
    ∀ i : Nat, (List.enumFrom i l).map (fun p => p.1 + 1) = List.range' (i + 1) l.length := by
  induction l with
  | nil => intro i; rfl
  | cons x xs ih =>
    intro i
    show (i + 1) :: (List.enumFrom (i + 1) xs).map (fun p => p.1 + 1) = _
    rw [ih (i + 1)]
    rfl

/-- C5: for EVERY batch (the non-empty case of the claim included),
`rank_leads` assigns the final ranks `1, 2, …, N` in output order — dense,
contiguous, 1-based, no gaps, no repeats. -/
theorem rank_leads_ranks (now : PyDateTime) (rows : List Lead) :
    (rank_leads now rows).map (fun r => r.final_rank) = List.range' 1 rows.length := by
  rw [rank_leads]
  rw [List.map_map]
  have hcomp :
      ((fun r : RankedLead => r.final_rank) ∘ fun p : Nat × (Lead × ℚ) =>
        (⟨p.2.1, p.2.2, p.1 + 1⟩ : RankedLead)) = fun p : Nat × (Lead × ℚ) => p.1 + 1 := rfl
  rw [hcomp]
  rw [List.enum]
  rw [enumFrom_map_rank]
  rw [sortDesc_length, List.length_map]


/-- Helper: an ASCII digit has value at most 9. -/
theorem digitVal_le_nine (c : Char) (h : c.isDigit = true) : digitVal c ≤ 9 := by
  simp only [Char.isDigit, Bool.and_eq_true, decide_eq_true_eq, Char.le_def] at h
  obtain ⟨h1, h2⟩ := h
  have g1 : 48 ≤ c.val.toNat := UInt32.le_toNat_of_le (by norm_num) h1
  have g2 : c.val.toNat ≤ 57 := UInt32.toNat_le_of_le (by norm_num) h2
  rw [digitVal, Char.toNat]
  omega

/-- Helper: the value parsed by `digitsGo` is bounded by the digit count. -/
theorem digitsGo_lt (n : Nat) :
    ∀ (l : List Char), l.length ≤ n → ∀ (acc v : Nat),
      digitsGo acc l = some v → v < (acc + 1) * 10 ^ l.length := by
  induction n with
  | zero =>
    intro l hl acc v h
    have hnil : l = [] := List.length_eq_zero.mp (Nat.le_zero.mp hl)
    subst hnil
    rw [digitsGo] at h
    have hv : acc = v := by simpa using h
    subst hv
    simp
  | succ n ih =>
    intro l hl acc v h
    rcases l with _ | ⟨c, cs⟩
    · rw [digitsGo] at h
      have hv : acc = v := by simpa using h
      subst hv
      simp
    · rw [digitsGo.eq_def] at h
      simp only [] at h
      by_cases hu : (c == '_') = true
      · rw [if_pos hu] at h
        rcases cs with _ | ⟨c2, cs2⟩
        · exact absurd h (by simp)
        · simp only [] at h
          by_cases hc : c2.isDigit = true
          · rw [if_pos hc] at h
            have hlen : cs2.length ≤ n := by
              simp only [List.length_cons] at hl
              omega
            have hv := ih cs2 hlen (acc * 10 + digitVal c2) v h
            have hd := digitVal_le_nine c2 hc
            have hp : 0 < 10 ^ cs2.length := pow_pos (by norm_num) _
            have hstep : v < (acc + 1) * 10 * 10 ^ cs2.length :=
              lt_of_lt_of_le hv (by nlinarith)
            have : (acc + 1) * 10 * 10 ^ cs2.length ≤ (acc + 1) * 10 ^ (cs2.length + 2) := by
              rw [pow_add]
              nlinarith
            simpa [List.length_cons] using lt_of_lt_of_le hstep this
          · rw [if_neg hc] at h
            exact absurd h (by simp)
      · rw [if_neg hu] at h
        by_cases hc : c.isDigit = true
        · rw [if_pos hc] at h
          have hlen : cs.length ≤ n := by
            simp only [List.length_cons] at hl
            omega
          have hv := ih cs hlen (acc * 10 + digitVal c) v h
          have hd := digitVal_le_nine c hc
          have hp : 0 < 10 ^ cs.length := pow_pos (by norm_num) _
          have hstep : v < (acc + 1) * 10 * 10 ^ cs.length :=
            lt_of_lt_of_le hv (by nlinarith)
          have heq : (acc + 1) * 10 * 10 ^ cs.length = (acc + 1) * 10 ^ (cs.length + 1) := by
            rw [pow_succ]
            ring
          rw [heq] at hstep
          simpa [List.length_cons] using hstep
        · rw [if_neg hc] at h
          exact absurd h (by simp)

/-- Helper: `parseDigits` is bounded by the digit count. -/
theorem parseDigits_lt (l : List Char) (v : Nat) (h : parseDigits l = some v) :
    v < 10 ^ l.length := by
  rcases l with _ | ⟨c, cs⟩
  · exact absurd h (by simp [parseDigits])
  · rw [parseDigits] at h
    by_cases hc : c.isDigit = true
    · rw [if_pos hc] at h
      have hv := digitsGo_lt cs.length cs le_rfl (digitVal c) v h
      have hd := digitVal_le_nine c hc
      have hp : 0 < 10 ^ cs.length := pow_pos (by norm_num) _
      have hstep : v < 10 * 10 ^ cs.length := lt_of_lt_of_le hv (by nlinarith)
      have heq : 10 * 10 ^ cs.length = 10 ^ (cs.length + 1) := by
        rw [pow_succ]
        ring
      rw [heq] at hstep
      simpa [List.length_cons] using hstep
    · rw [if_neg hc] at h
      exact absurd h (by simp)

/-- Helper: trimming cannot lengthen a list. -/
theorem pyStripWS_length_le (l : List Char) : (pyStripWS l).length ≤ l.length := by
  rw [pyStripWS]
  calc ((l.dropWhile pySpace).reverse.dropWhile pySpace).reverse.length
      = ((l.dropWhile pySpace).reverse.dropWhile pySpace).length := List.length_reverse _
    _ ≤ (l.dropWhile pySpace).reverse.length := (List.dropWhile_sublist _).length_le
    _ = (l.dropWhile pySpace).length := List.length_reverse _
    _ ≤ l.length := (List.dropWhile_sublist _).length_le

/-- Helper: a Python int parsed from at most three characters is below 1000. -/
theorem pyInt_short_lt (s : String) (y : Int) (h : pyInt s = some y)
    (hlen : s.toList.length ≤ 3) : y < 1000 := by
  rw [pyInt] at h
  have hst : (pyStripWS s.toList).length ≤ 3 :=
    le_trans (pyStripWS_length_le s.toList) hlen
  split at h
  next rest heq =>
    split at h
    next n hp =>
      have hy : (n : Int) = y := by simpa using h
      have hr : rest.length ≤ 2 := by
        rw [heq] at hst
        simpa using hst
      have hn : n < 100 :=
        lt_of_lt_of_le (parseDigits_lt rest n hp) (Nat.pow_le_pow_right (by norm_num) hr)
      have : (n : Int) < 100 := by exact_mod_cast hn
      omega
    next hp => exact absurd h (by simp)
  next rest heq =>
    split at h
    next n hp =>
      have hy : -(n : Int) = y := by simpa using h
      have : (0 : Int) ≤ (n : Int) := Int.ofNat_nonneg n
      omega
    next hp => exact absurd h (by simp)
  next rest hne1 hne2 =>
    split at h
    next n hp =>
      have hy : (n : Int) = y := by simpa using h
      have hn : n < 1000 :=
        lt_of_lt_of_le (parseDigits_lt _ n hp) (Nat.pow_le_pow_right (by norm_num) hst)
      have : (n : Int) < 1000 := by exact_mod_cast hn
      omega
    next hp => exact absurd h (by simp)

/-- C6: for every lead (and any current instant from year 1001 on — the guard
makes the code's `len(paper_date) >= 4` check equivalent to the claim's
"leading 4 characters parse"), the ranker's priority score equals
score/100 + 0.10·[corresponding author] + 0.05·[year of the date's leading 4
characters ≥ current year − 1] + 0.05·[lower-cased location contains one of
the nine hub cities]. -/
theorem calculate_priority_formula (now : PyDateTime) (row : Lead)
    (hy : 1001 ≤ now.year) :
    calculate_priority now row = priority_spec now row := by
  rw [calculate_priority, priority_spec]
  have hrec :
      (if row.paper_date != "" then
        if 4 ≤ row.paper_date.length then
          match pyInt (String.mk (row.paper_date.toList.take 4)) with
          | some year => if (now.year : Int) - 1 ≤ year then (1/20 : ℚ) else 0
          | none => 0
        else 0
      else 0) = (if spec_recent now row.paper_date then (1/20 : ℚ) else 0) := by
    by_cases hpd : row.paper_date = ""
    · rw [hpd]
      rfl
    · rw [if_pos (by simpa using hpd)]
      by_cases hlen : 4 ≤ row.paper_date.length
      · rw [if_pos hlen, spec_recent]
        cases pyInt (String.mk (row.paper_date.toList.take 4)) with
        | none => rfl
        | some year =>
          simp only []
          by_cases hc : (now.year : Int) - 1 ≤ year
          · rw [if_pos hc, if_pos (by simpa using hc)]
          · rw [if_neg hc, if_neg (by simpa using hc)]
      · rw [if_neg hlen, spec_recent]
        have htake : row.paper_date.toList.take 4 = row.paper_date.toList :=
          List.take_of_length_le (by
            have : row.paper_date.toList.length = row.paper_date.length := rfl
            omega)
        rw [htake]
        have hmk : String.mk row.paper_date.toList = row.paper_date := rfl
        rw [hmk]
        cases hp : pyInt row.paper_date with
        | none => rfl
        | some year =>
          have hshort : year < 1000 :=
            pyInt_short_lt row.paper_date year hp (by
              have : row.paper_date.toList.length = row.paper_date.length := rfl
              omega)
          have hno : ¬ ((now.year : Int) - 1 ≤ year) := by
            have : (1001 : Int) ≤ (now.year : Int) := by exact_mod_cast hy
            omega
          simp only []
          rw [if_neg (by simpa using hno)]
  have hloc :
      (if row.location != "" then
        if ranker_hub_locations.any (fun h => strContains (pyLower row.location) h)
          then (1/20 : ℚ) else 0
      else 0) = (if spec_hub row.location then (1/20 : ℚ) else 0) := by
    by_cases hl : row.location = ""
    · rw [hl]
      rfl
    · rw [if_pos (by simpa using hl), spec_hub]
  rw [hrec, hloc]

/-- C6 (witness): the formula theorem applied at a concrete instant and lead. -/
theorem calculate_priority_formula_witness :
    calculate_priority someNow
        { emptyLead with score := 50, is_corresponding_author := true,
                         paper_date := "2025-01", location := "Boston, MA, USA" }
      = priority_spec someNow
          { emptyLead with score := 50, is_corresponding_author := true,
                           paper_date := "2025-01", location := "Boston, MA, USA" } :=
  calculate_priority_formula someNow _ (by decide)

/-- Helper: `bind` over `Except.ok` reduces. -/
theorem ok_bind {β γ : Type} (a : β) (k : β → Except PyErr γ) :
    ((Except.ok a : Except PyErr β) >>= k) = k a := rfl

/-- Helper: a `bonus` whose weight key is present is a pure conditional
value. -/
theorem bonus_some (c : Bool) (w : Int) :
    bonus c (some w) = Except.ok (if c then w else 0) := by
  rw [bonus]
  split
  · rfl
  · rfl

/-- Helper: a two-branch `if` into `Int` with non-negative branches is
non-negative. -/
theorem iteIntNonneg (c : Prop) [Decidable c] (a b : Int) (ha : 0 ≤ a) (hb : 0 ≤ b) :
    0 ≤ if c then a else b := by
  split
  · exact ha
  · exact hb

/-- C3: for every lead, every instant, and every full configuration (all
required keys present, per the spec's configuration contract) whose scoring
weights are non-negative, `calculate_score` returns an integer score with
0 ≤ score ≤ 100. -/
theorem calculate_score_bounds (st : Option (List String)) (ks hubs hts : List String)
    (w1 w2 w3 w4 w5 : Int) (now : PyDateTime) (lead : Lead)
    (h1 : 0 ≤ w1) (h2 : 0 ≤ w2) (h3 : 0 ≤ w3) (h4 : 0 ≤ w4) (h5 : 0 ≤ w5) :
    ∃ s : Int,
      calculate_score now
          ⟨⟨st, some ⟨some w1, some w2, some w3, some w4, some w5⟩,
            some ks, some hubs, some hts⟩,
           ⟨some w1, some w2, some w3, some w4, some w5⟩⟩ lead = .ok s
        ∧ 0 ≤ s ∧ s ≤ 100 := by
  simp only [calculate_score, req, bonus_some, ok_bind]
  refine ⟨_, rfl, ?_, ?_⟩
  · refine le_min ?_ (by norm_num)
    have g1 : (0 : Int) ≤ if (ks.any fun k =>
        strContains (pyLower lead.title) (pyLower k)) = true then w1 else 0 :=
      iteIntNonneg _ _ _ h1 le_rfl
    have g2 : (0 : Int) ≤ if is_recent_publication now lead.paper_date = true
        then w2 else 0 :=
      iteIntNonneg _ _ _ h2 le_rfl
    have g3 : (0 : Int) ≤ if (hubs.any fun h =>
        strContains (pyLower lead.location) (pyLower h)) = true then w3 else 0 :=
      iteIntNonneg _ _ _ h3 le_rfl
    have g4 : (0 : Int) ≤ if lead.is_corresponding_author = true then w4 else 0 :=
      iteIntNonneg _ _ _ h4 le_rfl
    have g5 : (0 : Int) ≤ if (hts.any fun t =>
        strContains (pyLower lead.title) (pyLower t)) = true then (20 : Int) else 0 :=
      iteIntNonneg _ _ _ (by norm_num) le_rfl
    have g6 : (0 : Int) ≤ if (tech_keywords.any fun k =>
        strContains (pyLower (lead.paper_title ++ " " ++ lead.search_keywords))
          (pyLower k)) = true then w5 else 0 :=
      iteIntNonneg _ _ _ h5 le_rfl
    have g7 : (0 : Int) ≤ if (company_markers.any fun w =>
        strContains (pyLower lead.company) w) = true then (10 : Int) else 0 :=
      iteIntNonneg _ _ _ (by norm_num) le_rfl
    positivity
  · exact min_le_right _ _

/-- C3 (witness): the bound theorem applied at a concrete configuration and
lead. -/
theorem calculate_score_bounds_witness :
    ∃ s : Int,
      calculate_score someNow
          ⟨⟨none, some ⟨some 30, some 40, some 10, some 15, some 25⟩,
            some ["liver"], some ["boston"], some ["director"]⟩,
           ⟨some 30, some 40, some 10, some 15, some 25⟩⟩ emptyLead = .ok s
        ∧ 0 ≤ s ∧ s ≤ 100 :=
  calculate_score_bounds none ["liver"] ["boston"] ["director"] 30 40 10 15 25
    someNow emptyLead (by norm_num) (by norm_num) (by norm_num) (by norm_num) (by norm_num)
